import Mathlib

/-!
Verification of the Closed-Loop Leverage Grid Bot Optimizer.

The development shallowly embeds the optimizer core (`src/optimizer.py`)
and the orchestrator's bound-correction segment (`src/controller.py`).
Python float arithmetic on the allocation path is modelled over `ℚ`
(every operation there is a field operation), and the volatility-cone /
grid-count path, which uses `exp`, `log` and `sqrt`, over `ℝ`.
Python's raising float division is modelled by `pydiv` / `pydivR`,
which fail with `ZeroDivisionError` exactly on a zero divisor.
-/

namespace GridBot

/-- Python runtime errors that the embedded code can raise. -/
inductive PyError where
  | valueError (msg : String)
  | zeroDivisionError
deriving DecidableEq, Repr

/-- Python float division over `ℚ`: raises `ZeroDivisionError` on a zero divisor. -/
def pydiv (a b : ℚ) : Except PyError ℚ :=
  if b = 0 then .error .zeroDivisionError else .ok (a / b)

/-- Result dictionary of `ClosedLoopOptimizer.closed_loop_allocation`:
either the `{"error": "Invalid Risk Distance"}` sentinel, the
`DO_NOT_TRADE` dictionary, or the full `TRADE` dictionary. -/
inductive AllocResult where
  | invalidRisk
  | doNotTrade (reason : String)
  | trade (entry_price stop_loss target_liq_price max_safe_leverage
      total_exposure required_margin_transfer kelly_risk_pct : ℚ)
deriving DecidableEq, Repr

/-- `ClosedLoopOptimizer.closed_loop_allocation` (src/optimizer.py lines 100-159),
with every Python float division routed through `pydiv`. -/
def closed_loop_allocation (portfolio_balance entry_price stop_loss target_upper
    win_rate kelly_fraction safety_buffer : ℚ) : Except PyError AllocResult := do
  if stop_loss ≥ entry_price then
    throw (PyError.valueError "Stop Loss must be below Entry Price for Long Grid.")
  else do
    let risk_dist ← pydiv (entry_price - stop_loss) entry_price
    let reward_dist ← pydiv (target_upper - entry_price) entry_price
    if risk_dist ≤ 0 then
      pure AllocResult.invalidRisk
    else do
      let payoff_ratio ← pydiv reward_dist risk_dist
      let q := 1 - win_rate
      let q_over_b ← pydiv q payoff_ratio
      let raw_kelly := win_rate - q_over_b
      let applied_kelly := raw_kelly * kelly_fraction
      if applied_kelly ≤ 0 then
        pure (AllocResult.doNotTrade "Negative Edge/Kelly")
      else do
        let kelly_over_risk ← pydiv applied_kelly risk_dist
        let total_exposure := portfolio_balance * kelly_over_risk
        let target_liq_price := stop_loss * safety_buffer
        let dist_to_liq := entry_price - target_liq_price
        let max_safe_leverage ← pydiv entry_price dist_to_liq
        let required_margin ← pydiv total_exposure max_safe_leverage
        pure (AllocResult.trade entry_price stop_loss target_liq_price
          max_safe_leverage total_exposure required_margin applied_kelly)

instance {ε α : Type} [DecidableEq ε] [DecidableEq α] : DecidableEq (Except ε α) := fun x y =>
  match x, y with
  | .ok a, .ok b => if h : a = b then .isTrue (by rw [h]) else .isFalse (by simp [h])
  | .error a, .error b => if h : a = b then .isTrue (by rw [h]) else .isFalse (by simp [h])
  | .ok _, .error _ => .isFalse (by simp)
  | .error _, .ok _ => .isFalse (by simp)

lemma bindOk {α β : Type} (a : α) (f : α → Except PyError β) :
    (Except.ok a >>= f) = f a := rfl

lemma bindErr {α β : Type} (e : PyError) (f : α → Except PyError β) :
    ((Except.error e : Except PyError α) >>= f) = Except.error e := rfl

lemma pureOk {α : Type} (a : α) : (pure a : Except PyError α) = Except.ok a := rfl

lemma throwErr {α : Type} (e : PyError) : (throw e : Except PyError α) = Except.error e := rfl

/-- Inversion: everything that must have happened on the way to a `TRADE` result. -/
lemma alloc_trade_inv (b e s t w kf sb e1 s1 liq lev x m k : ℚ)
    (h : closed_loop_allocation b e s t w kf sb = .ok (.trade e1 s1 liq lev x m k)) :
    s < e ∧ e ≠ 0 ∧ 0 < (e - s) / e ∧ e1 = e ∧ s1 = s ∧ liq = s * sb ∧
      e - s * sb ≠ 0 ∧ lev = e / (e - s * sb) ∧
      k = (w - (1 - w) / (((t - e) / e) / ((e - s) / e))) * kf ∧ 0 < k := by
  unfold closed_loop_allocation at h
  by_cases h1 : s ≥ e
  · rw [if_pos h1, throwErr] at h
    exact absurd h (by simp)
  · rw [if_neg h1] at h
    by_cases h2 : e = 0
    · simp only [pydiv, if_pos h2, bindErr] at h
      exact absurd h (by simp)
    · simp only [pydiv, if_neg h2, bindOk] at h
      by_cases h3 : (e - s) / e ≤ 0
      · rw [if_pos h3, pureOk] at h
        exact absurd h (by simp)
      · rw [if_neg h3] at h
        have hrisk : (0 : ℚ) < (e - s) / e := lt_of_not_le h3
        simp only [if_neg (ne_of_gt hrisk), bindOk] at h
        by_cases h4 : ((t - e) / e) / ((e - s) / e) = 0
        · rw [if_pos h4, bindErr] at h
          exact absurd h (by simp)
        · simp only [if_neg h4, bindOk] at h
          by_cases h5 : (w - (1 - w) / (((t - e) / e) / ((e - s) / e))) * kf ≤ 0
          · rw [if_pos h5, pureOk] at h
            exact absurd h (by simp)
          · rw [if_neg h5] at h
            by_cases h6 : e - s * sb = 0
            · rw [if_pos h6, bindErr] at h
              exact absurd h (by simp)
            · simp only [if_neg h6, bindOk,
                if_neg (div_ne_zero h2 h6), pureOk] at h
              obtain ⟨he1, hs1, hliq, hlev, hx, hm, hk⟩ :=
                (AllocResult.trade.injEq _ _ _ _ _ _ _ _ _ _ _ _ _ _).mp
                  (Except.ok.inj h)
              refine ⟨lt_of_not_le h1, h2, hrisk, he1.symm, hs1.symm, hliq.symm,
                h6, hlev.symm, hk.symm, ?_⟩
              rw [← hk]
              exact lt_of_not_le h5

/-- Forward evaluation: the conditions under which the run ends in `DO_NOT_TRADE`. -/
lemma alloc_eval_doNotTrade (b e s t w kf sb : ℚ) (h1 : s < e) (h2 : e ≠ 0)
    (h3 : 0 < (e - s) / e) (h4 : ((t - e) / e) / ((e - s) / e) ≠ 0)
    (h5 : (w - (1 - w) / (((t - e) / e) / ((e - s) / e))) * kf ≤ 0) :
    closed_loop_allocation b e s t w kf sb = .ok (.doNotTrade "Negative Edge/Kelly") := by
  unfold closed_loop_allocation
  rw [if_neg (not_le.mpr h1)]
  simp only [pydiv, if_neg h2, bindOk]
  rw [if_neg (not_le.mpr h3)]
  simp only [if_neg (ne_of_gt h3), bindOk]
  simp only [if_neg h4, bindOk]
  rw [if_pos h5, pureOk]

/-- With a zero entry price and a negative stop the validation check passes and
the risk-distance division raises `ZeroDivisionError`. -/
lemma alloc_entry_zero (b s t w kf sb : ℚ) (hs : s < 0) :
    closed_loop_allocation b 0 s t w kf sb = .error .zeroDivisionError := by
  unfold closed_loop_allocation
  rw [if_neg (not_le.mpr hs)]
  simp [pydiv, bindErr]

/-- C1 (counterexample): at balance 1000, entry 100, stop −10, target 1000 and the
default win rate 0.55, Kelly fraction 0.5 and safety buffer 0.90,
`closed_loop_allocation` returns a TRADE result whose `target_liq_price` (−9) is
NOT below the stop loss (−10), refuting the claimed TRADE invariant. -/
theorem closed_loop_allocation_liq_invariant_cex :
    closed_loop_allocation 1000 100 (-10) 1000 (11/20) (1/2) (9/10) =
      .ok (.trade 100 (-10) (-9) (100/109) 225 (981/4) (99/400)) ∧
    ¬ ((-9 : ℚ) < -10) := by
  constructor
  · norm_num [closed_loop_allocation, pydiv, bindOk, bindErr, pureOk, throwErr]
  · norm_num

/-- C1 (amended): for every `closed_loop_allocation` call with the default safety
buffer 0.90 that returns a TRADE result whose stop loss is positive, the result
satisfies `target_liq_price < stop_loss < entry_price` and `max_safe_leverage > 0`.
(The positivity hypothesis on the stop loss is forced by the counterexample.) -/
theorem closed_loop_allocation_trade_invariant
    (b e s t w kf e1 s1 liq lev x m k : ℚ)
    (h : closed_loop_allocation b e s t w kf (9/10) = .ok (.trade e1 s1 liq lev x m k))
    (hs : 0 < s1) :
    liq < s1 ∧ s1 < e1 ∧ 0 < lev := by
  obtain ⟨hse, he0, hrisk, he1, hs1, hliq, hd, hlev, -, -⟩ :=
    alloc_trade_inv b e s t w kf (9/10) e1 s1 liq lev x m k h
  rw [hs1] at hs
  rw [he1, hs1]
  have he : 0 < e := lt_trans hs hse
  refine ⟨?_, hse, ?_⟩
  · rw [hliq]; nlinarith
  · rw [hlev]
    have hden : 0 < e - s * (9/10) := by nlinarith
    exact div_pos he hden

/-- Witness for C1 (amended): a concrete TRADE call with a positive stop loss,
whose liquidation price 81 sits below the stop 90, the stop below the entry 100,
and whose leverage 100/19 is positive. -/
theorem closed_loop_allocation_trade_invariant_witness :
    closed_loop_allocation 10000 100 90 120 (11/20) (1/2) (9/10) =
      .ok (.trade 100 90 81 (100/19) 16250 (6175/2) (13/80)) ∧
    (0 : ℚ) < 90 ∧ ((81 : ℚ) < 90 ∧ (90 : ℚ) < 100 ∧ (0 : ℚ) < 100/19) := by
  have heval : closed_loop_allocation 10000 100 90 120 (11/20) (1/2) (9/10) =
      .ok (.trade 100 90 81 (100/19) 16250 (6175/2) (13/80)) := by
    norm_num [closed_loop_allocation, pydiv, bindOk, bindErr, pureOk, throwErr]
  exact ⟨heval, by norm_num,
    closed_loop_allocation_trade_invariant 10000 100 90 120 (11/20) (1/2)
      100 90 81 (100/19) 16250 (6175/2) (13/80) heval (by norm_num)⟩

/-- C7: on the non-raising path (stop below entry, nonzero entry, positive risk
distance, nonzero payoff ratio), a non-positive applied Kelly fraction always
yields the `DO_NOT_TRADE` result with reason "Negative Edge/Kelly"; no TRADE
result ever carries a non-positive `kelly_risk_pct`; and the concrete call
(1000, 100, 90, 101, win_rate 0.5, defaults) returns DO_NOT_TRADE. -/
theorem closed_loop_allocation_kelly_gate (b e s t w kf sb : ℚ) :
    (s < e → e ≠ 0 → 0 < (e - s) / e → ((t - e) / e) / ((e - s) / e) ≠ 0 →
      (w - (1 - w) / (((t - e) / e) / ((e - s) / e))) * kf ≤ 0 →
      closed_loop_allocation b e s t w kf sb = .ok (.doNotTrade "Negative Edge/Kelly")) ∧
    (∀ e1 s1 liq lev x m k, closed_loop_allocation b e s t w kf sb =
        .ok (.trade e1 s1 liq lev x m k) → 0 < k) ∧
    closed_loop_allocation 1000 100 90 101 (1/2) (1/2) (9/10) =
      .ok (.doNotTrade "Negative Edge/Kelly") := by
  refine ⟨fun h1 h2 h3 h4 h5 => alloc_eval_doNotTrade b e s t w kf sb h1 h2 h3 h4 h5, ?_, ?_⟩
  · intro e1 s1 liq lev x m k h
    exact (alloc_trade_inv b e s t w kf sb e1 s1 liq lev x m k h).2.2.2.2.2.2.2.2.2
  · apply alloc_eval_doNotTrade <;> norm_num

/-- Witness for C7: the hypotheses of the DO_NOT_TRADE branch hold at the concrete
input (1000, 100, 90, 101, win rate 1/2, Kelly fraction 1/2, buffer 9/10), and the
theorem then yields the DO_NOT_TRADE result there. -/
theorem closed_loop_allocation_kelly_gate_witness :
    (90 : ℚ) < 100 ∧ (100 : ℚ) ≠ 0 ∧ (0 : ℚ) < (100 - 90) / 100 ∧
    (((101 - 100) / 100 : ℚ) / ((100 - 90) / 100) ≠ 0) ∧
    (((1/2 : ℚ) - (1 - 1/2) / (((101 - 100) / 100) / ((100 - 90) / 100))) * (1/2) ≤ 0) ∧
    closed_loop_allocation 1000 100 90 101 (1/2) (1/2) (9/10) =
      .ok (.doNotTrade "Negative Edge/Kelly") :=
  ⟨by norm_num, by norm_num, by norm_num, by norm_num, by norm_num,
    (closed_loop_allocation_kelly_gate 1000 100 90 101 (1/2) (1/2) (9/10)).1
      (by norm_num) (by norm_num) (by norm_num) (by norm_num) (by norm_num)⟩

/-- C10: the validation of `closed_loop_allocation` does not require a positive
entry price: with entry 0 and any negative stop the `stop_loss ≥ entry_price`
check passes and the risk-distance division raises `ZeroDivisionError`; at the
negative-price configuration entry = 0.9·stop (stop −10, entry −9) the
distance-to-liquidation denominator `entry − stop·safety_buffer` is 0; and the
operation is not total under the precondition `stop_loss < entry_price` alone. -/
theorem closed_loop_allocation_needs_pos_entry :
    (∀ b s t w kf sb : ℚ, s < 0 →
      closed_loop_allocation b 0 s t w kf sb = .error .zeroDivisionError) ∧
    ((-9 : ℚ) = (9/10) * (-10) ∧ (-9 : ℚ) - (-10) * (9/10) = 0) ∧
    ¬ (∀ b e s t w kf sb : ℚ, s < e →
        ∃ r, closed_loop_allocation b e s t w kf sb = .ok r) := by
  refine ⟨fun b s t w kf sb hs => alloc_entry_zero b s t w kf sb hs, by norm_num, ?_⟩
  intro hall
  obtain ⟨r, hr⟩ := hall 0 0 (-1) 0 0 0 0 (by norm_num)
  rw [alloc_entry_zero 0 (-1) 0 0 0 0 (by norm_num)] at hr
  exact absurd hr (by simp)

/-- Witness for C10: the zero-entry `ZeroDivisionError` branch at a concrete input. -/
theorem closed_loop_allocation_needs_pos_entry_witness :
    (-1 : ℚ) < 0 ∧
    closed_loop_allocation 7 0 (-1) 3 (11/20) (1/2) (9/10) = .error .zeroDivisionError :=
  ⟨by norm_num,
    closed_loop_allocation_needs_pos_entry.1 7 (-1) 3 (11/20) (1/2) (9/10) (by norm_num)⟩

/-! ### The volatility cone, grid counting and the orchestrator (over `ℝ`) -/

/-- Python float division over `ℝ`: raises `ZeroDivisionError` on a zero divisor. -/
noncomputable def pydivR (a b : ℝ) : Except PyError ℝ :=
  if b = 0 then .error .zeroDivisionError else .ok (a / b)

/-- The bounds dictionary returned by `calculate_bounds`. -/
structure GridBounds where
  upper_bound : ℝ
  lower_bound : ℝ

/-- The cone arithmetic of `ClosedLoopOptimizer.calculate_bounds`
(src/optimizer.py lines 34-40), after the two validation checks. -/
noncomputable def boundsRaw (current_price sigma mu : ℝ) (days : ℤ)
    (confidence_z : ℝ) : GridBounds :=
  let drift_component := (mu - 0.5 * sigma ^ 2) * (days : ℝ)
  let vol_component := confidence_z * sigma * Real.sqrt (days : ℝ)
  { upper_bound := current_price * Real.exp (drift_component + vol_component)
    lower_bound := current_price * Real.exp (drift_component - vol_component) }

/-- `ClosedLoopOptimizer.calculate_bounds` (src/optimizer.py lines 17-40). -/
noncomputable def calculate_bounds (current_price sigma mu : ℝ) (days : ℤ)
    (confidence_z : ℝ) : Except PyError GridBounds :=
  if days ≤ 0 then .error (.valueError "Days must be positive.")
  else if current_price ≤ 0 then .error (.valueError "Price must be positive.")
  else .ok (boundsRaw current_price sigma mu days confidence_z)

/-- `ClosedLoopOptimizer.calculate_grid_quantity` (src/optimizer.py lines 62-76). -/
noncomputable def calculate_grid_quantity (lower_bound upper_bound grid_step : ℝ) : ℤ :=
  if grid_step ≤ 0 then 0
  else if lower_bound ≤ 0 ∨ upper_bound ≤ 0 then 0
  else if lower_bound ≥ upper_bound then 0
  else ⌈Real.log (upper_bound / lower_bound) / Real.log (1 + grid_step)⌉

/-- `ClosedLoopOptimizer.calculate_min_capital` (src/optimizer.py lines 78-98),
with the Python division routed through `pydivR`. -/
noncomputable def calculate_min_capital (lower_bound upper_bound grid_step
    safe_leverage min_order_size : ℝ) : Except PyError ℝ :=
  let num_lines := calculate_grid_quantity lower_bound upper_bound grid_step
  let total_notional := (num_lines : ℝ) * min_order_size
  pydivR total_notional safe_leverage

/-- The orchestrator's bound computation with the bearish-drift auto-recovery
(src/controller.py lines 104-124).  The second component counts how many times
`calculate_bounds` was invoked. -/
noncomputable def run_bounds (current_price sigma mu : ℝ) (days : ℤ) :
    Except PyError (GridBounds × ℕ) := do
  let bounds ← calculate_bounds current_price sigma mu days 2
  if bounds.upper_bound < current_price then do
    let bounds2 ← calculate_bounds current_price sigma 0 days 2
    pure (bounds2, 2)
  else
    pure (bounds, 1)

/-- The `(entry_price, stop_loss, target_upper)` triple that the orchestrator
hands to `closed_loop_allocation` (src/controller.py lines 126 and 156-161):
the stop loss is `lower_bound - 1.5 * atr` of the corrected bounds, the entry is
the current price and the target is the corrected upper bound. -/
noncomputable def run_alloc_inputs (current_price sigma mu : ℝ) (days : ℤ)
    (atr : ℝ) : Except PyError (ℝ × ℝ × ℝ) := do
  let (bounds, _) ← run_bounds current_price sigma mu days
  let stop_loss := bounds.lower_bound - 1.5 * atr
  pure (current_price, stop_loss, bounds.upper_bound)

/-- Basic shape of the raw cone at the default `confidence_z = 2`. -/
lemma boundsRaw_props (p σ mu : ℝ) (days : ℤ) (hσ : 0 ≤ σ) (hd : 0 < days)
    (hp : 0 < p) :
    0 < (boundsRaw p σ mu days 2).lower_bound ∧
    (boundsRaw p σ mu days 2).lower_bound ≤ (boundsRaw p σ mu days 2).upper_bound ∧
    ((boundsRaw p σ mu days 2).upper_bound = (boundsRaw p σ mu days 2).lower_bound ↔
      σ = 0) ∧
    (0 < σ → (boundsRaw p σ mu days 2).lower_bound < (boundsRaw p σ mu days 2).upper_bound) := by
  have hdr : (0 : ℝ) < (days : ℝ) := by exact_mod_cast hd
  have hsq : 0 < Real.sqrt (days : ℝ) := Real.sqrt_pos.mpr hdr
  have hV : 0 ≤ 2 * σ * Real.sqrt (days : ℝ) := by positivity
  simp only [boundsRaw]
  refine ⟨by positivity, ?_, ?_, ?_⟩
  · exact mul_le_mul_of_nonneg_left (Real.exp_le_exp.mpr (by linarith)) hp.le
  · rw [mul_right_inj' hp.ne', Real.exp_eq_exp]
    constructor
    · intro h
      have hV0 : 2 * σ * Real.sqrt (days : ℝ) = 0 := by linarith
      rcases mul_eq_zero.mp hV0 with h2 | h3
      · rcases mul_eq_zero.mp h2 with h4 | h5
        · norm_num at h4
        · exact h5
      · exact absurd h3 (ne_of_gt hsq)
    · intro h
      rw [h]
      ring
  · intro hσ'
    have hVpos : 0 < 2 * σ * Real.sqrt (days : ℝ) := by positivity
    exact mul_lt_mul_of_pos_left (Real.exp_lt_exp.mpr (by linarith)) hp

/-- C4: `calculate_bounds` fails with a `ValueError` exactly when `days ≤ 0` or
`price ≤ 0`; otherwise it returns the drift-adjusted cone
`price·exp(drift ± z·sigma·sqrt(days))`, and at the default `z = 2` the result
satisfies `upper ≥ lower > 0` with equality exactly when `sigma = 0`. -/
theorem calculate_bounds_spec (p σ mu : ℝ) (days : ℤ) (z : ℝ) :
    ((∃ msg, calculate_bounds p σ mu days z = .error (.valueError msg)) ↔
      days ≤ 0 ∨ p ≤ 0) ∧
    (0 < days → 0 < p →
      calculate_bounds p σ mu days z =
        .ok ⟨p * Real.exp ((mu - 0.5 * σ ^ 2) * (days : ℝ) + z * σ * Real.sqrt (days : ℝ)),
             p * Real.exp ((mu - 0.5 * σ ^ 2) * (days : ℝ) - z * σ * Real.sqrt (days : ℝ))⟩) ∧
    (0 ≤ σ → 0 < days → 0 < p → ∀ bnd, calculate_bounds p σ mu days 2 = .ok bnd →
      0 < bnd.lower_bound ∧ bnd.lower_bound ≤ bnd.upper_bound ∧
      (bnd.upper_bound = bnd.lower_bound ↔ σ = 0)) := by
  refine ⟨⟨?_, ?_⟩, ?_, ?_⟩
  · rintro ⟨msg, hmsg⟩
    by_contra hcon
    push_neg at hcon
    obtain ⟨hdp, hpp⟩ := hcon
    unfold calculate_bounds at hmsg
    rw [if_neg (not_le.mpr hdp), if_neg (not_le.mpr hpp)] at hmsg
    exact absurd hmsg (by simp)
  · intro h
    unfold calculate_bounds
    by_cases hdd : days ≤ 0
    · rw [if_pos hdd]; exact ⟨_, rfl⟩
    · rcases h with h | h
      · exact absurd h hdd
      · rw [if_neg hdd, if_pos h]; exact ⟨_, rfl⟩
  · intro hdp hpp
    unfold calculate_bounds
    rw [if_neg (not_le.mpr hdp), if_neg (not_le.mpr hpp)]
    rfl
  · intro hσ hdp hpp bnd hbnd
    unfold calculate_bounds at hbnd
    rw [if_neg (not_le.mpr hdp), if_neg (not_le.mpr hpp)] at hbnd
    obtain ⟨h1, h2, h3, -⟩ := boundsRaw_props p σ mu days hσ hdp hpp
    rw [← Except.ok.inj hbnd]
    exact ⟨h1, h2, h3⟩

/-- Witness for C4: concrete evaluation at price 1, sigma 1, mu 0, 1 day, `z = 2`. -/
theorem calculate_bounds_spec_witness :
    (0 : ℤ) < 1 ∧ (0 : ℝ) < 1 ∧
    calculate_bounds 1 1 0 1 2 =
      .ok ⟨1 * Real.exp ((0 - 0.5 * 1 ^ 2) * ((1 : ℤ) : ℝ) + 2 * 1 * Real.sqrt ((1 : ℤ) : ℝ)),
           1 * Real.exp ((0 - 0.5 * 1 ^ 2) * ((1 : ℤ) : ℝ) - 2 * 1 * Real.sqrt ((1 : ℤ) : ℝ))⟩ :=
  ⟨by decide, by norm_num,
    (calculate_bounds_spec 1 1 0 1 2).2.1 (by decide) (by norm_num)⟩

/-- On validated inputs, `run_bounds` is the single-branch correction. -/
lemma run_bounds_eq (p σ mu : ℝ) (days : ℤ) (hd : 0 < days) (hp : 0 < p) :
    run_bounds p σ mu days =
      if (boundsRaw p σ mu days 2).upper_bound < p
      then .ok (boundsRaw p σ 0 days 2, 2)
      else .ok (boundsRaw p σ mu days 2, 1) := by
  unfold run_bounds calculate_bounds
  rw [if_neg (not_le.mpr hd), if_neg (not_le.mpr hp), bindOk]
  by_cases hb : (boundsRaw p σ mu days 2).upper_bound < p
  · rw [if_pos hb, if_pos hb, if_neg (not_le.mpr hd), if_neg (not_le.mpr hp),
      bindOk, pureOk]
  · rw [if_neg hb, if_neg hb, pureOk]

/-- With the neutral drift `mu = 0` the cone's upper bound stays at or above the
price whenever `sigma * sqrt(days) ≤ 4`. -/
lemma boundsRaw_neutral_upper (p σ : ℝ) (days : ℤ) (hσ : 0 ≤ σ) (hd : 0 < days)
    (hp : 0 < p) (hcap : σ * Real.sqrt (days : ℝ) ≤ 4) :
    p ≤ (boundsRaw p σ 0 days 2).upper_bound := by
  have hdr : (0 : ℝ) ≤ (days : ℝ) := by exact_mod_cast hd.le
  have hsq : Real.sqrt (days : ℝ) ^ 2 = (days : ℝ) := Real.sq_sqrt hdr
  have hs : 0 ≤ Real.sqrt (days : ℝ) := Real.sqrt_nonneg _
  have hexp : 0 ≤ (0 - 0.5 * σ ^ 2) * (Real.sqrt (days : ℝ) ^ 2) +
      2 * σ * Real.sqrt (days : ℝ) := by
    nlinarith [mul_nonneg (mul_nonneg hσ hs) (sub_nonneg.mpr hcap)]
  rw [hsq] at hexp
  show p ≤ p * Real.exp ((0 - 0.5 * σ ^ 2) * (days : ℝ) + 2 * σ * Real.sqrt (days : ℝ))
  calc p = p * 1 := (mul_one p).symm
    _ ≤ _ := by
        apply mul_le_mul_of_nonneg_left _ hp.le
        rw [← Real.exp_zero]
        exact Real.exp_le_exp.mpr hexp

/-- C3: the bound correction is single-pass.  If the first cone's upper bound is
below the current price, the orchestrator recomputes once with `mu = 0` (two
`calculate_bounds` calls, final bounds `boundsRaw p σ 0 days 2`, which is exactly
what `calculate_bounds p σ 0 days` returns), with no further iteration even if
the corrected upper bound is still below the price; otherwise the first-pass
bounds are kept and `calculate_bounds` is called exactly once. -/
theorem run_bounds_single_pass (p σ mu : ℝ) (days : ℤ) (hd : 0 < days) (hp : 0 < p) :
    ((boundsRaw p σ mu days 2).upper_bound < p →
      run_bounds p σ mu days = .ok (boundsRaw p σ 0 days 2, 2) ∧
      calculate_bounds p σ 0 days 2 = .ok (boundsRaw p σ 0 days 2)) ∧
    (p ≤ (boundsRaw p σ mu days 2).upper_bound →
      run_bounds p σ mu days = .ok (boundsRaw p σ mu days 2, 1)) := by
  constructor
  · intro hb
    constructor
    · rw [run_bounds_eq p σ mu days hd hp, if_pos hb]
    · unfold calculate_bounds
      rw [if_neg (not_le.mpr hd), if_neg (not_le.mpr hp)]
  · intro hb
    rw [run_bounds_eq p σ mu days hd hp, if_neg (not_lt.mpr hb)]

/-- Closed-form upper bound of the cone at price 1, sigma 1, mu 0, 1 day. -/
lemma boundsRaw_one_upper : (boundsRaw 1 1 0 1 2).upper_bound = Real.exp (3/2) := by
  simp only [boundsRaw]
  norm_num [Real.sqrt_one]

/-- Closed-form lower bound of the cone at price 1, sigma 1, mu 0, 1 day. -/
lemma boundsRaw_one_lower : (boundsRaw 1 1 0 1 2).lower_bound = Real.exp (-(5/2)) := by
  simp only [boundsRaw]
  norm_num [Real.sqrt_one]

/-- At price 1, sigma 1, drift 0, one day, no correction fires. -/
lemma run_bounds_one : run_bounds 1 1 0 1 = .ok (boundsRaw 1 1 0 1 2, 1) := by
  rw [run_bounds_eq 1 1 0 1 (by decide) (by norm_num), if_neg]
  rw [boundsRaw_one_upper, not_lt]
  exact Real.one_le_exp (by norm_num)

/-- Witness for C3: at price 1, sigma 1, mu 0, 1 day the first cone already has
`upper ≥ price`, so the run keeps it with one `calculate_bounds` call. -/
theorem run_bounds_single_pass_witness :
    (0 : ℤ) < 1 ∧ (0 : ℝ) < 1 ∧ run_bounds 1 1 0 1 = .ok (boundsRaw 1 1 0 1 2, 1) :=
  ⟨by decide, by norm_num,
    (run_bounds_single_pass 1 1 0 1 (by decide) (by norm_num)).2
      (by rw [boundsRaw_one_upper]; exact Real.one_le_exp (by norm_num))⟩

/-- C2 (counterexample): at price 1, sigma 5, mu 0, 1 day, the bearish correction
fires and recomputes with `mu = 0`, yet the final bounds that reach the
Presenter still satisfy `upper_bound = exp(−5/2) < 1 = current_price`. -/
theorem run_bounds_presenter_invariant_cex :
    run_bounds 1 5 0 1 =
      .ok ({ upper_bound := Real.exp (-(5/2)), lower_bound := Real.exp (-(45/2)) }, 2) ∧
    Real.exp (-(5/2) : ℝ) < 1 := by
  have hub : boundsRaw 1 5 0 1 2 =
      { upper_bound := Real.exp (-(5/2)), lower_bound := Real.exp (-(45/2)) } := by
    simp only [boundsRaw, GridBounds.mk.injEq]
    norm_num [Real.sqrt_one]
  have hlt : Real.exp (-(5/2) : ℝ) < 1 := Real.exp_lt_one_iff.mpr (by norm_num)
  refine ⟨?_, hlt⟩
  rw [run_bounds_eq 1 5 0 1 (by decide) (by norm_num), if_pos, hub]
  rw [hub]
  exact hlt

/-- C2 (amended): for every orchestration run with `price > 0`, `sigma ≥ 0`,
`days > 0`, the bounds that reach the Presenter satisfy `lower > 0`,
`lower ≤ upper` (strictly when `sigma > 0`), and `upper ≥ current_price`
whenever `sigma·sqrt(days) ≤ 4`; the cap hypothesis is forced by the
counterexample, where even the corrected bounds sit below the price. -/
theorem run_bounds_presenter_invariant (p σ mu : ℝ) (days : ℤ)
    (hp : 0 < p) (hσ : 0 ≤ σ) (hd : 0 < days) (bnd : GridBounds) (n : ℕ)
    (h : run_bounds p σ mu days = .ok (bnd, n)) :
    0 < bnd.lower_bound ∧ bnd.lower_bound ≤ bnd.upper_bound ∧
    (0 < σ → bnd.lower_bound < bnd.upper_bound) ∧
    (σ * Real.sqrt (days : ℝ) ≤ 4 → p ≤ bnd.upper_bound) := by
  rw [run_bounds_eq p σ mu days hd hp] at h
  by_cases hb : (boundsRaw p σ mu days 2).upper_bound < p
  · rw [if_pos hb] at h
    obtain ⟨hbnd, -⟩ := Prod.mk.injEq .. |>.mp (Except.ok.inj h)
    obtain ⟨h1, h2, -, h4⟩ := boundsRaw_props p σ 0 days hσ hd hp
    rw [← hbnd]
    exact ⟨h1, h2, h4, fun hcap => boundsRaw_neutral_upper p σ days hσ hd hp hcap⟩
  · rw [if_neg hb] at h
    obtain ⟨hbnd, -⟩ := Prod.mk.injEq .. |>.mp (Except.ok.inj h)
    obtain ⟨h1, h2, -, h4⟩ := boundsRaw_props p σ mu days hσ hd hp
    rw [← hbnd]
    exact ⟨h1, h2, h4, fun _ => not_lt.mp hb⟩

/-- Witness for C2 (amended): the invariant evaluated on the concrete run at
price 1, sigma 1, mu 0, 1 day. -/
theorem run_bounds_presenter_invariant_witness :
    ((0 : ℝ) < 1 ∧ (0 : ℝ) ≤ 1 ∧ (0 : ℤ) < 1 ∧
      run_bounds 1 1 0 1 = .ok (boundsRaw 1 1 0 1 2, 1)) ∧
    (0 < (boundsRaw 1 1 0 1 2).lower_bound ∧
      (boundsRaw 1 1 0 1 2).lower_bound ≤ (boundsRaw 1 1 0 1 2).upper_bound ∧
      ((0 : ℝ) < 1 → (boundsRaw 1 1 0 1 2).lower_bound < (boundsRaw 1 1 0 1 2).upper_bound) ∧
      ((1 : ℝ) * Real.sqrt ((1 : ℤ) : ℝ) ≤ 4 → 1 ≤ (boundsRaw 1 1 0 1 2).upper_bound)) :=
  ⟨⟨by norm_num, by norm_num, by decide, run_bounds_one⟩,
    run_bounds_presenter_invariant 1 1 0 1 (by norm_num) (by norm_num) (by decide)
      (boundsRaw 1 1 0 1 2) 1 run_bounds_one⟩

lemma sqrt_four : Real.sqrt 4 = 2 := by
  rw [show (4 : ℝ) = 2 ^ 2 by norm_num]
  exact Real.sqrt_sq (by norm_num)

/-- C5 (counterexample): at price 1, sigma 2, mu 0, `z = 2`, moving the horizon
from 1 day to 4 days does NOT widen the cone upwards: the 4-day upper bound is
`exp 0 = 1` while the 1-day upper bound is `exp 2`. -/
theorem calculate_bounds_widen_cex :
    ¬ ((boundsRaw 1 2 0 1 2).upper_bound < (boundsRaw 1 2 0 4 2).upper_bound) := by
  have h4 : (boundsRaw 1 2 0 4 2).upper_bound = Real.exp 0 := by
    simp only [boundsRaw]
    norm_num [sqrt_four]
  have h1 : (boundsRaw 1 2 0 1 2).upper_bound = Real.exp 2 := by
    simp only [boundsRaw]
    norm_num [Real.sqrt_one]
  rw [h1, h4, not_lt]
  exact Real.exp_le_exp.mpr (by norm_num)

/-- C5 (amended): with `mu = 0` and `z = 2` the cone strictly widens around the
price from horizon `days1` to `days2 > days1` provided `sigma > 0` and
`sigma·(sqrt(days1) + sqrt(days2)) < 4`; both side conditions are forced by the
counterexample (at `sigma = 0` the bounds do not move, and for large
`sigma·sqrt(days)` the upper bound shrinks). -/
theorem calculate_bounds_widen_amended (p σ : ℝ) (d1 d2 : ℤ)
    (hp : 0 < p) (hσ : 0 < σ) (h1 : 0 < d1) (h12 : d1 < d2)
    (hcap : σ * (Real.sqrt (d1 : ℝ) + Real.sqrt (d2 : ℝ)) < 4) :
    (boundsRaw p σ 0 d1 2).upper_bound < (boundsRaw p σ 0 d2 2).upper_bound ∧
    (boundsRaw p σ 0 d2 2).lower_bound < (boundsRaw p σ 0 d1 2).lower_bound := by
  have hd1 : (0 : ℝ) ≤ (d1 : ℝ) := by exact_mod_cast h1.le
  have hd2 : (0 : ℝ) ≤ (d2 : ℝ) := by
    have : (0 : ℤ) < d2 := lt_trans h1 h12
    exact_mod_cast this.le
  have ha2 : Real.sqrt (d1 : ℝ) ^ 2 = (d1 : ℝ) := Real.sq_sqrt hd1
  have hb2 : Real.sqrt (d2 : ℝ) ^ 2 = (d2 : ℝ) := Real.sq_sqrt hd2
  have hab : Real.sqrt (d1 : ℝ) < Real.sqrt (d2 : ℝ) :=
    (Real.sqrt_lt_sqrt_iff hd1).mpr (by exact_mod_cast h12)
  have ha : 0 ≤ Real.sqrt (d1 : ℝ) := Real.sqrt_nonneg _
  constructor
  · simp only [boundsRaw]
    apply mul_lt_mul_of_pos_left _ hp
    apply Real.exp_lt_exp.mpr
    have key : (0 - 0.5 * σ ^ 2) * (Real.sqrt (d1 : ℝ) ^ 2) + 2 * σ * Real.sqrt (d1 : ℝ) <
        (0 - 0.5 * σ ^ 2) * (Real.sqrt (d2 : ℝ) ^ 2) + 2 * σ * Real.sqrt (d2 : ℝ) := by
      nlinarith [mul_pos (mul_pos (sub_pos.mpr hab) hσ) (sub_pos.mpr hcap), ha, hab]
    rw [ha2, hb2] at key
    exact key
  · simp only [boundsRaw]
    apply mul_lt_mul_of_pos_left _ hp
    apply Real.exp_lt_exp.mpr
    have key : (0 - 0.5 * σ ^ 2) * (Real.sqrt (d2 : ℝ) ^ 2) - 2 * σ * Real.sqrt (d2 : ℝ) <
        (0 - 0.5 * σ ^ 2) * (Real.sqrt (d1 : ℝ) ^ 2) - 2 * σ * Real.sqrt (d1 : ℝ) := by
      nlinarith [mul_pos (sub_pos.mpr hab)
          (by linarith : 0 < Real.sqrt (d1 : ℝ) + Real.sqrt (d2 : ℝ)),
        mul_pos hσ (sub_pos.mpr hab), ha, hab]
    rw [ha2, hb2] at key
    exact key

/-- Witness for C5 (amended): price 1, sigma 1, horizons 1 and 4 days, where
`1·(sqrt 1 + sqrt 4) = 3 < 4`. -/
theorem calculate_bounds_widen_amended_witness :
    ((0 : ℝ) < 1 ∧ (0 : ℤ) < 1 ∧ (1 : ℤ) < 4 ∧
      (1 : ℝ) * (Real.sqrt ((1 : ℤ) : ℝ) + Real.sqrt ((4 : ℤ) : ℝ)) < 4) ∧
    ((boundsRaw 1 1 0 1 2).upper_bound < (boundsRaw 1 1 0 4 2).upper_bound ∧
      (boundsRaw 1 1 0 4 2).lower_bound < (boundsRaw 1 1 0 1 2).lower_bound) :=
  ⟨⟨by norm_num, by decide, by decide,
      by push_cast; rw [Real.sqrt_one, sqrt_four]; norm_num⟩,
    calculate_bounds_widen_amended 1 1 1 4 (by norm_num) (by norm_num) (by decide)
      (by decide) (by push_cast; rw [Real.sqrt_one, sqrt_four]; norm_num)⟩

/-- C6: `calculate_grid_quantity` returns `⌈ln(upper/lower)/ln(1+step)⌉` on
proper inputs (`step > 0`, `0 < lower < upper`), returns 0 — with no exception —
on every degenerate input, and takes the values 1, 5 and 0 on the three
concrete inputs of the spec. -/
theorem calculate_grid_quantity_spec (l u s : ℝ) :
    (0 < s → 0 < l → l < u →
      calculate_grid_quantity l u s = ⌈Real.log (u / l) / Real.log (1 + s)⌉) ∧
    (s ≤ 0 ∨ l ≤ 0 ∨ u ≤ 0 ∨ u ≤ l → calculate_grid_quantity l u s = 0) ∧
    calculate_grid_quantity 100 200 1 = 1 ∧
    calculate_grid_quantity 100 150 (1/10) = 5 ∧
    calculate_grid_quantity 200 100 (1/10) = 0 := by
  have hform : ∀ l u s : ℝ, 0 < s → 0 < l → l < u →
      calculate_grid_quantity l u s = ⌈Real.log (u / l) / Real.log (1 + s)⌉ := by
    intro l u s hs hl hlu
    have h2 : ¬ (l ≤ 0 ∨ u ≤ 0) := by
      push_neg
      exact ⟨hl, lt_trans hl hlu⟩
    unfold calculate_grid_quantity
    rw [if_neg (not_le.mpr hs), if_neg h2, if_neg (not_le.mpr hlu)]
  have hdeg : ∀ l u s : ℝ, (s ≤ 0 ∨ l ≤ 0 ∨ u ≤ 0 ∨ u ≤ l) →
      calculate_grid_quantity l u s = 0 := by
    intro l u s hcase
    unfold calculate_grid_quantity
    by_cases c1 : s ≤ 0
    · rw [if_pos c1]
    rw [if_neg c1]
    by_cases c2 : l ≤ 0 ∨ u ≤ 0
    · rw [if_pos c2]
    rw [if_neg c2]
    rcases hcase with h | h | h | h
    · exact absurd h c1
    · exact absurd (Or.inl h) c2
    · exact absurd (Or.inr h) c2
    · rw [if_pos h]
  refine ⟨hform l u s, hdeg l u s, ?_, ?_,
    hdeg 200 100 (1/10) (Or.inr (Or.inr (Or.inr (by norm_num))))⟩
  · rw [hform 100 200 1 one_pos (by norm_num) (by norm_num)]
    rw [show (200 : ℝ) / 100 = 2 by norm_num, show (1 : ℝ) + 1 = 2 by norm_num]
    rw [div_self (ne_of_gt (Real.log_pos (by norm_num)))]
    exact Int.ceil_one
  · rw [hform 100 150 (1/10) (by norm_num) (by norm_num) (by norm_num)]
    rw [show (150 : ℝ) / 100 = 3/2 by norm_num, show (1 : ℝ) + 1/10 = 11/10 by norm_num]
    have hlpos : 0 < Real.log (11/10 : ℝ) := Real.log_pos (by norm_num)
    rw [Int.ceil_eq_iff]
    constructor
    · rw [lt_div_iff₀ hlpos]
      have key1 : Real.log ((11/10 : ℝ) ^ (4 : ℕ)) < Real.log (3/2) :=
        Real.log_lt_log (by positivity) (by norm_num)
      rw [Real.log_pow] at key1
      push_cast at key1 ⊢
      linarith
    · rw [div_le_iff₀ hlpos]
      have key2 : Real.log ((3/2 : ℝ)) ≤ Real.log ((11/10 : ℝ) ^ (5 : ℕ)) := by
        apply (Real.log_le_log_iff (by norm_num) (by positivity)).mpr
        norm_num
      rw [Real.log_pow] at key2
      push_cast at key2 ⊢
      linarith

/-- Witness for C6: the non-degenerate branch evaluated at (100, 200, step 1). -/
theorem calculate_grid_quantity_spec_witness :
    ((0 : ℝ) < 1 ∧ (0 : ℝ) < 100 ∧ (100 : ℝ) < 200) ∧
    calculate_grid_quantity 100 200 1 = ⌈Real.log ((200 : ℝ) / 100) / Real.log (1 + 1)⌉ :=
  ⟨⟨by norm_num, by norm_num, by norm_num⟩,
    (calculate_grid_quantity_spec 100 200 1).1 (by norm_num) (by norm_num) (by norm_num)⟩

/-- C9: `calculate_min_capital` divides by `safe_leverage` unguarded: with
`safe_leverage = 0` it raises `ZeroDivisionError` for every input, even when the
grid quantity is 0; with any nonzero `safe_leverage` it is total, returning
`lines·min_order_size / safe_leverage`, which is 0 whenever the quantity is 0. -/
theorem calculate_min_capital_spec :
    (∀ l u s mos : ℝ, calculate_min_capital l u s 0 mos = .error .zeroDivisionError) ∧
    (∀ l u s lev mos : ℝ, lev ≠ 0 →
      calculate_min_capital l u s lev mos =
        .ok ((calculate_grid_quantity l u s : ℝ) * mos / lev) ∧
      (calculate_grid_quantity l u s = 0 →
        calculate_min_capital l u s lev mos = .ok 0)) := by
  constructor
  · intro l u s mos
    simp [calculate_min_capital, pydivR]
  · intro l u s lev mos hlev
    refine ⟨?_, ?_⟩
    · simp [calculate_min_capital, pydivR, hlev]
    · intro hq
      simp [calculate_min_capital, pydivR, hlev, hq]

/-- Witness for C9: leverage 1 with a degenerate grid (step 0) gives capital 0. -/
theorem calculate_min_capital_spec_witness :
    (1 : ℝ) ≠ 0 ∧ calculate_grid_quantity 1 2 0 = 0 ∧
    calculate_min_capital 1 2 0 1 6 = .ok 0 := by
  have hq : calculate_grid_quantity 1 2 0 = 0 := by
    unfold calculate_grid_quantity
    rw [if_pos le_rfl]
  exact ⟨one_ne_zero, hq, (calculate_min_capital_spec.2 1 2 0 1 6 one_ne_zero).2 hq⟩

/-- C8: whatever bounds the bound-correction step produces, the orchestrator
hands `closed_loop_allocation` the entry `current_price`, the stop loss
`lower_bound - 1.5·atr` (unclamped), and the target `upper_bound`; consequently
for any `atr ≥ lower_bound/1.5` the stop loss passed on is non-positive. -/
theorem run_alloc_inputs_spec (p σ mu : ℝ) (days : ℤ) (atr : ℝ)
    (bnd : GridBounds) (n : ℕ)
    (hb : run_bounds p σ mu days = .ok (bnd, n)) :
    run_alloc_inputs p σ mu days atr =
      .ok (p, bnd.lower_bound - 1.5 * atr, bnd.upper_bound) ∧
    (bnd.lower_bound / 1.5 ≤ atr → bnd.lower_bound - 1.5 * atr ≤ 0) := by
  constructor
  · unfold run_alloc_inputs
    rw [hb, bindOk]
    rfl
  · intro hatr
    rw [div_le_iff₀ (by norm_num : (0 : ℝ) < 1.5)] at hatr
    linarith

/-- Witness for C8: the orchestrated inputs at price 1, sigma 1, mu 0, 1 day,
ATR 1, where the stop loss `exp(−5/2) − 1.5` is indeed non-positive. -/
theorem run_alloc_inputs_spec_witness :
    run_bounds 1 1 0 1 = .ok (boundsRaw 1 1 0 1 2, 1) ∧
    (boundsRaw 1 1 0 1 2).lower_bound / 1.5 ≤ 1 ∧
    (run_alloc_inputs 1 1 0 1 1 =
        .ok (1, (boundsRaw 1 1 0 1 2).lower_bound - 1.5 * 1,
          (boundsRaw 1 1 0 1 2).upper_bound) ∧
      ((boundsRaw 1 1 0 1 2).lower_bound / 1.5 ≤ 1 →
        (boundsRaw 1 1 0 1 2).lower_bound - 1.5 * 1 ≤ 0)) := by
  have hdiv : (boundsRaw 1 1 0 1 2).lower_bound / 1.5 ≤ 1 := by
    rw [boundsRaw_one_lower, div_le_one (by norm_num)]
    calc Real.exp (-(5/2) : ℝ) ≤ 1 := (Real.exp_lt_one_iff.mpr (by norm_num)).le
      _ ≤ 1.5 := by norm_num
  exact ⟨run_bounds_one, hdiv,
    run_alloc_inputs_spec 1 1 0 1 1 (boundsRaw 1 1 0 1 2) 1 run_bounds_one⟩

end GridBot
